import Mathlib

/-!
Shallow embedding of the NebuSwap liquidity-pool engine:
the pool contract (NebuPool), its liquidity-share ledger
(NebulaLiquidityToken, an ERC20 with owner-only mint/burn), and the
registry contract (NebuSwap).

Conventions of the embedding:
* token addresses and holder addresses are `Nat`;
* `uint256` values are `Nat`; Solidity 0.8 checked subtraction and the
  SafeMath `div` are modelled by `subChecked` / `divChecked`, which fail
  (revert) on underflow / division by zero; overflow reverts are not
  modelled (values are unbounded `Nat`), which only enlarges the set of
  states an operation can produce;
* an ERC20 `transfer` / `transferFrom` succeeds exactly when the payer
  holds at least the amount (allowance is assumed granted); the payer's
  balance is passed explicitly to each operation, and the pool's own
  holdings of the two pool tokens are the `bal1` / `bal2` fields;
* a reverting call is an `Except.error`; each `require` in the source is
  mapped to its own error constructor.
-/

/-- Revert reasons of the pool and ledger operations, one constructor per
`require` (or per checked-arithmetic panic) in the source. -/
inductive NebuErr where
  | ZeroAmount
  | InvalidAsset
  | InsufficientInitialLiquidity
  | ConstantNotUpdated
  | NoLiquidity
  | InsufficientShares
  | InsufficientBalanceFrom
  | InsufficientBalanceTo
  | SlippageExceeded
  | TransferFailed
  | InvariantViolation
  | Underflow
  | DivByZero
deriving Repr, DecidableEq

/-- Solidity 0.8 checked subtraction (and SafeMath `sub`): reverts on
underflow. -/
def subChecked (a b : Nat) : Except NebuErr Nat :=
  if b ≤ a then .ok (a - b) else .error .Underflow

/-- SafeMath `div`: reverts on a zero divisor. -/
def divChecked (a b : Nat) : Except NebuErr Nat :=
  if b = 0 then .error .DivByZero else .ok (a / b)

/-- An ERC20 transfer of `amt` out of a balance `bal` succeeds exactly when
`amt ≤ bal`. -/
def erc20CanTransfer (bal amt : Nat) : Bool := amt ≤ bal

/-- Balance lookup in an association list (holder, balance); absent holders
have balance 0, as in an ERC20 mapping. -/
def lookupBal (l : List (Nat × Nat)) (h : Nat) : Nat :=
  match l with
  | [] => 0
  | (k, v) :: rest => if k = h then v else lookupBal rest h

/-- Overwrite the balance of holder `h` with `v`. -/
def setBal (l : List (Nat × Nat)) (h v : Nat) : List (Nat × Nat) :=
  (h, v) :: l.filter (fun p => p.1 != h)

/-- State of one NebuPool contract together with its NebulaLiquidityToken
ledger: the two token addresses, the stored reserves, the stored
`constantK`, the pool's own ERC20 holdings of the two tokens
(`balanceOf(address(this))`), and the liquidity-share ledger
(`totalSupply` plus the holder-balance mapping). -/
structure PoolState where
  token1 : Nat
  token2 : Nat
  reserve1 : Nat
  reserve2 : Nat
  constantK : Nat
  bal1 : Nat
  bal2 : Nat
  totalSupply : Nat
  shareBal : List (Nat × Nat)
deriving Repr, DecidableEq

/-- The pool as the NebuPool constructor leaves it: zero reserves, zero
`constantK`, an empty ledger. -/
def initPool (t1 t2 : Nat) : PoolState :=
  { token1 := t1, token2 := t2, reserve1 := 0, reserve2 := 0,
    constantK := 0, bal1 := 0, bal2 := 0, totalSupply := 0, shareBal := [] }

/-- shareBalOf: `liquidityToken.balanceOf(h)`. -/
def shareBalOf (s : PoolState) (h : Nat) : Nat := lookupBal s.shareBal h

/-- mintShares: `liquidityToken.mint(h, amt)` (the pool is the admin, so the
role check passes). -/
def mintShares (s : PoolState) (h amt : Nat) : PoolState :=
  { s with totalSupply := s.totalSupply + amt,
           shareBal := setBal s.shareBal h (shareBalOf s h + amt) }

/-- burnShares: `liquidityToken.burn(h, amt)`, i.e. ERC20 `_burn`: reverts
when the holder's balance is below `amt`, else decreases the balance and
`totalSupply`. -/
def burnShares (s : PoolState) (h amt : Nat) : Except NebuErr PoolState :=
  if shareBalOf s h < amt then .error .InsufficientShares
  else if s.totalSupply < amt then .error .Underflow
  else .ok { s with totalSupply := s.totalSupply - amt,
                    shareBal := setBal s.shareBal h (shareBalOf s h - amt) }

/-- The pool's ERC20 balance of token `t` (`IERC20(t).balanceOf(address(this))`). -/
def poolBalOf (s : PoolState) (t : Nat) : Nat :=
  if t = s.token1 then s.bal1 else if t = s.token2 then s.bal2 else 0

/-- Credit `amt` of token `t` to the pool's own holdings. -/
def poolCredit (s : PoolState) (t amt : Nat) : PoolState :=
  if t = s.token1 then { s with bal1 := s.bal1 + amt }
  else if t = s.token2 then { s with bal2 := s.bal2 + amt }
  else s

/-- Debit `amt` of token `t` from the pool's own holdings. -/
def poolDebit (s : PoolState) (t amt : Nat) : PoolState :=
  if t = s.token1 then { s with bal1 := s.bal1 - amt }
  else if t = s.token2 then { s with bal2 := s.bal2 - amt }
  else s

/-- `_updateConstantFormula` (part_001 lines 103-112): reset `constantK`
to 0 when either reserve is 0, else set it to `reserve1 * reserve2`,
with the source's `require(constantK > 0)`. -/
def updateConstantFormula (s : PoolState) : Except NebuErr PoolState :=
  if s.reserve1 = 0 ∨ s.reserve2 = 0 then .ok { s with constantK := 0 }
  else
    let k := s.reserve1 * s.reserve2
    if ¬ 0 < k then .error .ConstantNotUpdated
    else .ok { s with constantK := k }

/-- `getExpectedOutput` (part_001 lines 43-52): quotes
`reserveOut - constantK / (reserveIn + amountIn)` using the STORED
`constantK`, with Solidity's checked subtraction. -/
def getExpectedOutput (s : PoolState) (fromToken amountIn : Nat) :
    Except NebuErr Nat :=
  if ¬ 0 < amountIn then .error .ZeroAmount
  else if ¬ (fromToken = s.token1 ∨ fromToken = s.token2) then .error .InvalidAsset
  else if fromToken = s.token1 then
    subChecked s.reserve2 (s.constantK / (s.reserve1 + amountIn))
  else
    subChecked s.reserve1 (s.constantK / (s.reserve2 + amountIn))

/-- `addLiquidity` (part_001 lines 55-100).  `providerBal1`/`providerBal2`
are the provider's ERC20 balances of the two tokens, consumed by the two
`transferFrom` calls; the share math follows the source: first deposit
mints `sqrt(amountToken1 * amountToken2)` and requires it positive,
a later deposit mints `min(amountToken1*T/reserve1, amountToken2*T/reserve2)`
with no positivity requirement; both paths end in `_updateConstantFormula`. -/
def addLiquidity (s : PoolState) (provider providerBal1 providerBal2
    amountToken1 amountToken2 : Nat) : Except NebuErr (PoolState × Nat) :=
  if ¬ amountToken1 ≤ providerBal1 then .error .TransferFailed
  else if ¬ amountToken2 ≤ providerBal2 then .error .TransferFailed
  else
    let s₀ := { s with bal1 := s.bal1 + amountToken1, bal2 := s.bal2 + amountToken2 }
    if s.totalSupply = 0 then
      let liquidity := Nat.sqrt (amountToken1 * amountToken2)
      if ¬ 0 < liquidity then .error .InsufficientInitialLiquidity
      else
        let s₁ := { s₀ with reserve1 := amountToken1, reserve2 := amountToken2 }
        let s₂ := mintShares s₁ provider liquidity
        match updateConstantFormula s₂ with
        | .error e => .error e
        | .ok s₃ => .ok (s₃, liquidity)
    else
      match divChecked (amountToken1 * s.totalSupply) s.reserve1,
            divChecked (amountToken2 * s.totalSupply) s.reserve2 with
      | .ok l1, .ok l2 =>
        let liquidity := min l1 l2
        let s₁ := { s₀ with reserve1 := s.reserve1 + amountToken1,
                            reserve2 := s.reserve2 + amountToken2 }
        let s₂ := mintShares s₁ provider liquidity
        match updateConstantFormula s₂ with
        | .error e => .error e
        | .ok s₃ => .ok (s₃, liquidity)
      | .error e, _ => .error e
      | _, .error e => .error e

/-- `removeLiquidity` (part_001 lines 116-138): requires liquidity to exist,
computes the pro-rata payouts with floor division, burns the shares,
decreases the reserves with checked subtraction, refreshes `constantK`,
and transfers the payouts back (an ERC20 transfer reverts when the pool
holds too little). -/
def removeLiquidity (s : PoolState) (provider liquidity : Nat) :
    Except NebuErr (PoolState × Nat × Nat) :=
  if s.totalSupply = 0 then .error .NoLiquidity
  else
    let amountToken1 := liquidity * s.reserve1 / s.totalSupply
    let amountToken2 := liquidity * s.reserve2 / s.totalSupply
    match burnShares s provider liquidity with
    | .error e => .error e
    | .ok s₁ =>
      match subChecked s₁.reserve1 amountToken1, subChecked s₁.reserve2 amountToken2 with
      | .ok r1, .ok r2 =>
        let s₂ := { s₁ with reserve1 := r1, reserve2 := r2 }
        match updateConstantFormula s₂ with
        | .error e => .error e
        | .ok s₃ =>
          if ¬ erc20CanTransfer s₃.bal1 amountToken1 then .error .TransferFailed
          else if ¬ erc20CanTransfer s₃.bal2 amountToken2 then .error .TransferFailed
          else .ok ({ s₃ with bal1 := s₃.bal1 - amountToken1,
                              bal2 := s₃.bal2 - amountToken2 },
                    amountToken1, amountToken2)
      | .error e, _ => .error e
      | _, .error e => .error e

/-- `swapTokens` (part_001 lines 140-174).  `traderBalFrom` is the trader's
ERC20 balance of `fromToken`.  The pair validation repeats the disjunct
`fromToken = token1 ∧ toToken = token2` twice, exactly as the source's
line 147 does; the balance checks are strict (`>`); the quote uses the
stored `constantK`; the reserve update moves `expectedAmount` (not the
caller's `amountOut`); the final check demands the EXACT equality
`reserve1 * reserve2 = constantK` and `constantK` itself is never updated
by a swap. -/
def swapTokens (s : PoolState) (traderBalFrom fromToken toToken
    amountIn amountOut : Nat) : Except NebuErr (PoolState × Nat) :=
  if ¬ (0 < amountIn ∧ 0 < amountOut) then .error .ZeroAmount
  else if ¬ ((fromToken = s.token1 ∧ toToken = s.token2) ∨
             (fromToken = s.token1 ∧ toToken = s.token2)) then .error .InvalidAsset
  else if ¬ amountIn < traderBalFrom then .error .InsufficientBalanceFrom
  else if ¬ amountOut < poolBalOf s toToken then .error .InsufficientBalanceTo
  else
    match (if fromToken = s.token1
           then subChecked s.reserve2 (s.constantK / (s.reserve1 + amountIn))
           else subChecked s.reserve1 (s.constantK / (s.reserve2 + amountIn))) with
    | .error e => .error e
    | .ok expectedAmount =>
      if ¬ amountOut ≤ expectedAmount then .error .SlippageExceeded
      else if ¬ erc20CanTransfer traderBalFrom amountIn then .error .TransferFailed
      else
        let s₁ := poolCredit s fromToken amountIn
        if ¬ erc20CanTransfer (poolBalOf s₁ toToken) expectedAmount then
          .error .TransferFailed
        else
          let s₂ := poolDebit s₁ toToken expectedAmount
          match (if fromToken = s.token1 ∧ toToken = s.token2
                 then match subChecked s₂.reserve2 expectedAmount with
                      | .error e => .error e
                      | .ok r2 => .ok { s₂ with reserve1 := s₂.reserve1 + amountIn,
                                                reserve2 := r2 }
                 else match subChecked s₂.reserve1 expectedAmount with
                      | .error e => .error e
                      | .ok r1 => .ok { s₂ with reserve1 := r1,
                                                reserve2 := s₂.reserve2 + amountIn }
                 : Except NebuErr PoolState) with
          | .error e => .error e
          | .ok s₃ =>
            if ¬ s₃.reserve1 * s₃.reserve2 = s₃.constantK then .error .InvariantViolation
            else .ok (s₃, expectedAmount)

/-- `getReserves` (part_001 lines 177-179). -/
def getReserves (s : PoolState) : Nat × Nat := (s.reserve1, s.reserve2)

/-! ## The registry contract NebuSwap (part_000 lines 92-133) -/

/-- Revert reasons of `createPairs`. -/
inductive RegErr where
  | IdenticalAsset
  | DuplicatePair
deriving Repr, DecidableEq

/-- Lookup in the two-level `getPair` mapping, modelled as an association
list on ordered key pairs; `none` is the mapping's `address(0)` default. -/
def lookupPair (l : List ((Nat × Nat) × Nat)) (k : Nat × Nat) : Option Nat :=
  match l with
  | [] => none
  | (k', v) :: rest => if k' = k then some v else lookupPair rest k

/-- State of the NebuSwap registry: the enumeration array `allPairs` and the
`getPair` double mapping. Pool identities are abstracted to the index at
which the pool was created (each `new NebuPool` yields a fresh address). -/
structure NebuSwapState where
  allPairs : List Nat
  pairs : List ((Nat × Nat) × Nat)
deriving Repr, DecidableEq

/-- The registry as its constructor leaves it. -/
def initRegistry : NebuSwapState := { allPairs := [], pairs := [] }

/-- `getPair[t1][t2]`. -/
def getPair (s : NebuSwapState) (t1 t2 : Nat) : Option Nat :=
  lookupPair s.pairs (t1, t2)

/-- `createPairs` (part_000 lines 100-124): rejects identical tokens and an
existing `(t1,t2)` entry, then registers the fresh pool under both key
orders and appends it to `allPairs`. -/
def createPairs (s : NebuSwapState) (t1 t2 : Nat) :
    Except RegErr (NebuSwapState × Nat) :=
  if t1 = t2 then .error .IdenticalAsset
  else if (getPair s t1 t2).isSome then .error .DuplicatePair
  else
    let pid := s.allPairs.length
    .ok ({ allPairs := s.allPairs ++ [pid],
           pairs := ((t1, t2), pid) :: ((t2, t1), pid) :: s.pairs }, pid)

/-- `allPairsLength` (part_000 lines 126-128). -/
def allPairsLength (s : NebuSwapState) : Nat := s.allPairs.length

/-! ## Reachability -/

/-- Pool states reachable through the public operations: creation by the
registry (which enforces distinct tokens), and every successful
`addLiquidity`, `removeLiquidity` and `swapTokens` call, with arbitrary
callers and caller balances. -/
inductive PoolReachable : PoolState → Prop where
  | init (t1 t2 : Nat) (hne : t1 ≠ t2) : PoolReachable (initPool t1 t2)
  | addLiq {s s' : PoolState} {p b1 b2 a1 a2 l : Nat} :
      PoolReachable s → addLiquidity s p b1 b2 a1 a2 = .ok (s', l) →
      PoolReachable s'
  | remLiq {s s' : PoolState} {p l a1 a2 : Nat} :
      PoolReachable s → removeLiquidity s p l = .ok (s', a1, a2) →
      PoolReachable s'
  | swapStep {s s' : PoolState} {tb ft tt aIn aOut out : Nat} :
      PoolReachable s → swapTokens s tb ft tt aIn aOut = .ok (s', out) →
      PoolReachable s'

/-- Registry states reachable through successful `createPairs` calls. -/
inductive RegReachable : NebuSwapState → Prop where
  | init : RegReachable initRegistry
  | step {s s' : NebuSwapState} {t1 t2 p : Nat} :
      RegReachable s → createPairs s t1 t2 = .ok (s', p) → RegReachable s'

/-! ## Helper lemmas -/

/-- Evaluation rule for `Nat.sqrt` at a literal, via the floor-sqrt
characterisation. -/
theorem sqrtEval {n r : Nat} (h1 : r * r ≤ n) (h2 : n < (r + 1) * (r + 1)) :
    Nat.sqrt n = r := (Nat.eq_sqrt.mpr ⟨h1, h2⟩).symm

theorem poolCredit_token1 (s : PoolState) (t a : Nat) :
    (poolCredit s t a).token1 = s.token1 := by
  unfold poolCredit; split_ifs <;> rfl

theorem poolCredit_token2 (s : PoolState) (t a : Nat) :
    (poolCredit s t a).token2 = s.token2 := by
  unfold poolCredit; split_ifs <;> rfl

theorem poolCredit_reserve1 (s : PoolState) (t a : Nat) :
    (poolCredit s t a).reserve1 = s.reserve1 := by
  unfold poolCredit; split_ifs <;> rfl

theorem poolCredit_reserve2 (s : PoolState) (t a : Nat) :
    (poolCredit s t a).reserve2 = s.reserve2 := by
  unfold poolCredit; split_ifs <;> rfl

theorem poolCredit_constantK (s : PoolState) (t a : Nat) :
    (poolCredit s t a).constantK = s.constantK := by
  unfold poolCredit; split_ifs <;> rfl

theorem poolDebit_token1 (s : PoolState) (t a : Nat) :
    (poolDebit s t a).token1 = s.token1 := by
  unfold poolDebit; split_ifs <;> rfl

theorem poolDebit_token2 (s : PoolState) (t a : Nat) :
    (poolDebit s t a).token2 = s.token2 := by
  unfold poolDebit; split_ifs <;> rfl

theorem poolDebit_reserve1 (s : PoolState) (t a : Nat) :
    (poolDebit s t a).reserve1 = s.reserve1 := by
  unfold poolDebit; split_ifs <;> rfl

theorem poolDebit_reserve2 (s : PoolState) (t a : Nat) :
    (poolDebit s t a).reserve2 = s.reserve2 := by
  unfold poolDebit; split_ifs <;> rfl

theorem poolDebit_constantK (s : PoolState) (t a : Nat) :
    (poolDebit s t a).constantK = s.constantK := by
  unfold poolDebit; split_ifs <;> rfl

/-- Every successful swap ends in the source's final `require`, so the state
it returns satisfies `reserve1 * reserve2 = constantK`, and a swap never
writes `constantK` (nor the token addresses). -/
theorem swapTokens_ok_spec {s : PoolState} {tb ft tt aIn aOut : Nat}
    {s' : PoolState} {out : Nat}
    (h : swapTokens s tb ft tt aIn aOut = .ok (s', out)) :
    s'.reserve1 * s'.reserve2 = s'.constantK ∧ s'.constantK = s.constantK ∧
    s'.token1 = s.token1 ∧ s'.token2 = s.token2 := by
  simp only [swapTokens] at h
  split at h
  · simp at h
  split at h
  · simp at h
  split at h
  · simp at h
  split at h
  · simp at h
  split at h
  · simp at h
  split at h
  · simp at h
  split at h
  · simp at h
  split at h
  · simp at h
  split at h
  · simp at h
  split at h
  · simp at h
  rename_i s₃ hs₃ hKeq
  rw [Except.ok.injEq, Prod.mk.injEq] at h
  obtain ⟨rfl, rfl⟩ := h
  split at hs₃ <;> split at hs₃ <;>
    simp_all [poolDebit_constantK, poolCredit_constantK, poolDebit_token1,
              poolCredit_token1, poolDebit_token2, poolCredit_token2]
  subst hs₃
  exact ⟨rfl, rfl, rfl⟩

/-- The relation `_updateConstantFormula` establishes between the stored
`constantK` and the reserves. -/
def Kinv (s : PoolState) : Prop :=
  s.constantK = if s.reserve1 = 0 ∨ s.reserve2 = 0 then 0 else s.reserve1 * s.reserve2

theorem updateConstantFormula_ok_Kinv {s s' : PoolState}
    (h : updateConstantFormula s = .ok s') : Kinv s' := by
  simp only [updateConstantFormula] at h
  split at h
  · rename_i h0
    rw [Except.ok.injEq] at h
    subst h
    simp [Kinv, h0]
  · rename_i hne
    split at h
    · simp at h
    · rw [Except.ok.injEq] at h
      subst h
      simp [Kinv, hne]

theorem updateConstantFormula_ok_fields {s s' : PoolState}
    (h : updateConstantFormula s = .ok s') :
    s'.token1 = s.token1 ∧ s'.token2 = s.token2 ∧
    s'.reserve1 = s.reserve1 ∧ s'.reserve2 = s.reserve2 ∧
    s'.bal1 = s.bal1 ∧ s'.bal2 = s.bal2 ∧
    s'.totalSupply = s.totalSupply ∧ s'.shareBal = s.shareBal := by
  simp only [updateConstantFormula] at h
  split at h
  · rw [Except.ok.injEq] at h
    subst h
    exact ⟨rfl, rfl, rfl, rfl, rfl, rfl, rfl, rfl⟩
  · split at h
    · simp at h
    · rw [Except.ok.injEq] at h
      subst h
      exact ⟨rfl, rfl, rfl, rfl, rfl, rfl, rfl, rfl⟩

theorem addLiquidity_ok_Kinv {s s' : PoolState} {p b1 b2 a1 a2 l : Nat}
    (h : addLiquidity s p b1 b2 a1 a2 = .ok (s', l)) : Kinv s' := by
  simp only [addLiquidity] at h
  split at h
  · simp at h
  split at h
  · simp at h
  split at h
  · split at h
    · simp at h
    · split at h
      · simp at h
      · rename_i s₃ hupd
        rw [Except.ok.injEq, Prod.mk.injEq] at h
        obtain ⟨rfl, rfl⟩ := h
        exact updateConstantFormula_ok_Kinv hupd
  · split at h
    · split at h
      · simp at h
      · rename_i s₃ hupd
        rw [Except.ok.injEq, Prod.mk.injEq] at h
        obtain ⟨rfl, rfl⟩ := h
        exact updateConstantFormula_ok_Kinv hupd
    · simp at h
    · simp at h

theorem addLiquidity_ok_tokens {s s' : PoolState} {p b1 b2 a1 a2 l : Nat}
    (h : addLiquidity s p b1 b2 a1 a2 = .ok (s', l)) :
    s'.token1 = s.token1 ∧ s'.token2 = s.token2 := by
  simp only [addLiquidity] at h
  split at h
  · simp at h
  split at h
  · simp at h
  split at h
  · split at h
    · simp at h
    · split at h
      · simp at h
      · rename_i s₃ hupd
        rw [Except.ok.injEq, Prod.mk.injEq] at h
        obtain ⟨rfl, rfl⟩ := h
        obtain ⟨h1, h2, -⟩ := updateConstantFormula_ok_fields hupd
        exact ⟨h1, h2⟩
  · split at h
    · split at h
      · simp at h
      · rename_i s₃ hupd
        rw [Except.ok.injEq, Prod.mk.injEq] at h
        obtain ⟨rfl, rfl⟩ := h
        obtain ⟨h1, h2, -⟩ := updateConstantFormula_ok_fields hupd
        exact ⟨h1, h2⟩
    · simp at h
    · simp at h

theorem removeLiquidity_ok_Kinv {s s' : PoolState} {p l a1 a2 : Nat}
    (h : removeLiquidity s p l = .ok (s', a1, a2)) : Kinv s' := by
  simp only [removeLiquidity] at h
  split at h
  · simp at h
  split at h
  · simp at h
  split at h
  · rename_i r1 r2 hsub1 hsub2
    split at h
    · simp at h
    · rename_i s₃ hupd
      split at h
      · simp at h
      split at h
      · simp at h
      rw [Except.ok.injEq, Prod.mk.injEq] at h
      obtain ⟨rfl, -⟩ := h
      have hk := updateConstantFormula_ok_Kinv hupd
      simpa [Kinv] using hk
  · simp at h
  · simp at h

/-- `burnShares` only changes the ledger fields. -/
theorem burnShares_ok_fields {s s' : PoolState} {h amt : Nat}
    (hb : burnShares s h amt = .ok s') :
    s'.token1 = s.token1 ∧ s'.token2 = s.token2 ∧
    s'.reserve1 = s.reserve1 ∧ s'.reserve2 = s.reserve2 ∧
    s'.bal1 = s.bal1 ∧ s'.bal2 = s.bal2 := by
  unfold burnShares at hb
  split at hb
  · simp at hb
  split at hb
  · simp at hb
  rw [Except.ok.injEq] at hb
  subst hb
  exact ⟨rfl, rfl, rfl, rfl, rfl, rfl⟩

theorem removeLiquidity_ok_tokens {s s' : PoolState} {p l a1 a2 : Nat}
    (h : removeLiquidity s p l = .ok (s', a1, a2)) :
    s'.token1 = s.token1 ∧ s'.token2 = s.token2 := by
  simp only [removeLiquidity] at h
  split at h
  · simp at h
  split at h
  · simp at h
  rename_i s₁ hburn
  split at h
  · rename_i r1 r2 hsub1 hsub2
    split at h
    · simp at h
    · rename_i s₃ hupd
      split at h
      · simp at h
      split at h
      · simp at h
      rw [Except.ok.injEq, Prod.mk.injEq] at h
      obtain ⟨rfl, -⟩ := h
      obtain ⟨h1, h2, -⟩ := updateConstantFormula_ok_fields hupd
      obtain ⟨hb1, hb2, -⟩ := burnShares_ok_fields hburn
      exact ⟨h1.trans hb1, h2.trans hb2⟩
  · simp at h
  · simp at h

theorem Kinv_of_product_eq {s : PoolState}
    (h : s.reserve1 * s.reserve2 = s.constantK) : Kinv s := by
  unfold Kinv
  split
  · rename_i h0
    rw [← h]
    rcases h0 with h0 | h0 <;> simp [h0]
  · exact h.symm

/-- In every reachable pool state, the stored `constantK` is determined by
the reserves: 0 when either reserve is 0, else their product. -/
theorem Kinv_reachable {s : PoolState} (hs : PoolReachable s) : Kinv s := by
  induction hs with
  | init t1 t2 hne => simp [Kinv, initPool]
  | addLiq _ hop _ => exact addLiquidity_ok_Kinv hop
  | remLiq _ hop _ => exact removeLiquidity_ok_Kinv hop
  | swapStep _ hop _ => exact Kinv_of_product_eq (swapTokens_ok_spec hop).1

/-- The token addresses never change, so a reachable pool keeps the two
distinct tokens the registry created it with. -/
theorem reachable_token_ne {s : PoolState} (hs : PoolReachable s) :
    s.token1 ≠ s.token2 := by
  induction hs with
  | init t1 t2 hne => exact hne
  | addLiq _ hop ih =>
      obtain ⟨h1, h2⟩ := addLiquidity_ok_tokens hop
      rw [h1, h2]; exact ih
  | remLiq _ hop ih =>
      obtain ⟨h1, h2⟩ := removeLiquidity_ok_tokens hop
      rw [h1, h2]; exact ih
  | swapStep _ hop ih =>
      obtain ⟨-, -, h1, h2⟩ := swapTokens_ok_spec hop
      rw [h1, h2]; exact ih

/-- Floor payout of a pro-rata share never exceeds the reserve. -/
theorem payout_le {l T r : Nat} (hlT : l ≤ T) (hT : T ≠ 0) : l * r / T ≤ r := by
  calc l * r / T ≤ T * r / T :=
        Nat.div_le_div_right (Nat.mul_le_mul_right r hlT)
    _ = r := Nat.mul_div_cancel_left r (Nat.pos_of_ne_zero hT)

/-- First-deposit branch of `addLiquidity`, success case. -/
theorem addLiquidity_first_ok {s : PoolState} {p b1 b2 a1 a2 : Nat}
    (hT : s.totalSupply = 0) (h1 : a1 ≤ b1) (h2 : a2 ≤ b2)
    (hpos : 0 < Nat.sqrt (a1 * a2)) :
    addLiquidity s p b1 b2 a1 a2 =
      .ok ({ token1 := s.token1, token2 := s.token2,
             reserve1 := a1, reserve2 := a2, constantK := a1 * a2,
             bal1 := s.bal1 + a1, bal2 := s.bal2 + a2,
             totalSupply := s.totalSupply + Nat.sqrt (a1 * a2),
             shareBal := setBal s.shareBal p (shareBalOf s p + Nat.sqrt (a1 * a2)) },
           Nat.sqrt (a1 * a2)) := by
  have hprod : 0 < a1 * a2 := Nat.sqrt_pos.mp hpos
  have ha1 : a1 ≠ 0 := by rintro rfl; simp at hprod
  have ha2 : a2 ≠ 0 := by rintro rfl; simp at hprod
  simp [addLiquidity, mintShares, shareBalOf, updateConstantFormula,
        h1, h2, hT, hpos, ha1, ha2, hprod]

/-- First-deposit branch of `addLiquidity`, zero-sqrt failure case. -/
theorem addLiquidity_first_err {s : PoolState} {p b1 b2 a1 a2 : Nat}
    (hT : s.totalSupply = 0) (h1 : a1 ≤ b1) (h2 : a2 ≤ b2)
    (hz : Nat.sqrt (a1 * a2) = 0) :
    addLiquidity s p b1 b2 a1 a2 = .error .InsufficientInitialLiquidity := by
  simp [addLiquidity, h1, h2, hT, hz]

/-- Proportional-deposit branch of `addLiquidity`: it always succeeds (there
is no zero-share check in the source), minting the min of the two pro-rata
ratios and adding the full amounts to the reserves. -/
theorem addLiquidity_prop_ok {s : PoolState} {p b1 b2 a1 a2 : Nat}
    (hT : s.totalSupply ≠ 0) (hr1 : s.reserve1 ≠ 0) (hr2 : s.reserve2 ≠ 0)
    (h1 : a1 ≤ b1) (h2 : a2 ≤ b2) :
    addLiquidity s p b1 b2 a1 a2 =
      .ok ({ token1 := s.token1, token2 := s.token2,
             reserve1 := s.reserve1 + a1, reserve2 := s.reserve2 + a2,
             constantK := (s.reserve1 + a1) * (s.reserve2 + a2),
             bal1 := s.bal1 + a1, bal2 := s.bal2 + a2,
             totalSupply := s.totalSupply +
               min (a1 * s.totalSupply / s.reserve1) (a2 * s.totalSupply / s.reserve2),
             shareBal := setBal s.shareBal p (shareBalOf s p +
               min (a1 * s.totalSupply / s.reserve1) (a2 * s.totalSupply / s.reserve2)) },
           min (a1 * s.totalSupply / s.reserve1) (a2 * s.totalSupply / s.reserve2)) := by
  have hR1 : s.reserve1 + a1 ≠ 0 := fun h => hr1 (by omega)
  have hR2 : s.reserve2 + a2 ≠ 0 := fun h => hr2 (by omega)
  have hKpos : 0 < (s.reserve1 + a1) * (s.reserve2 + a2) :=
    Nat.mul_pos (Nat.pos_of_ne_zero hR1) (Nat.pos_of_ne_zero hR2)
  simp [addLiquidity, divChecked, mintShares, shareBalOf, updateConstantFormula,
        h1, h2, hT, hr1, hr2, hR1, hR2, hKpos]

/-- `removeLiquidity` failure: empty pool. -/
theorem removeLiquidity_noLiquidity {s : PoolState} {p l : Nat}
    (hT : s.totalSupply = 0) :
    removeLiquidity s p l = .error .NoLiquidity := by
  simp [removeLiquidity, hT]

/-- `removeLiquidity` failure: the ledger's burn rejects a holder whose share
balance is below the request. -/
theorem removeLiquidity_insufficientShares {s : PoolState} {p l : Nat}
    (hT : s.totalSupply ≠ 0) (hbal : shareBalOf s p < l) :
    removeLiquidity s p l = .error .InsufficientShares := by
  simp [removeLiquidity, burnShares, hT, hbal]

/-- `removeLiquidity` success case, fully characterised. -/
theorem removeLiquidity_ok {s : PoolState} {p l : Nat}
    (hT : s.totalSupply ≠ 0) (hbal : l ≤ shareBalOf s p) (hlT : l ≤ s.totalSupply)
    (hb1 : l * s.reserve1 / s.totalSupply ≤ s.bal1)
    (hb2 : l * s.reserve2 / s.totalSupply ≤ s.bal2) :
    removeLiquidity s p l =
      .ok ({ token1 := s.token1, token2 := s.token2,
             reserve1 := s.reserve1 - l * s.reserve1 / s.totalSupply,
             reserve2 := s.reserve2 - l * s.reserve2 / s.totalSupply,
             constantK := if s.reserve1 - l * s.reserve1 / s.totalSupply = 0 ∨
                             s.reserve2 - l * s.reserve2 / s.totalSupply = 0 then 0
                          else (s.reserve1 - l * s.reserve1 / s.totalSupply) *
                               (s.reserve2 - l * s.reserve2 / s.totalSupply),
             bal1 := s.bal1 - l * s.reserve1 / s.totalSupply,
             bal2 := s.bal2 - l * s.reserve2 / s.totalSupply,
             totalSupply := s.totalSupply - l,
             shareBal := setBal s.shareBal p (shareBalOf s p - l) },
           l * s.reserve1 / s.totalSupply, l * s.reserve2 / s.totalSupply) := by
  have hp1 : l * s.reserve1 / s.totalSupply ≤ s.reserve1 := payout_le hlT hT
  have hp2 : l * s.reserve2 / s.totalSupply ≤ s.reserve2 := payout_le hlT hT
  by_cases hz : s.reserve1 - l * s.reserve1 / s.totalSupply = 0 ∨
                s.reserve2 - l * s.reserve2 / s.totalSupply = 0
  · simp [removeLiquidity, burnShares, subChecked, erc20CanTransfer,
          updateConstantFormula, hT, Nat.not_lt.mpr hbal, Nat.not_lt.mpr hlT,
          hp1, hp2, hb1, hb2, hz]
  · have hzpos : 0 < (s.reserve1 - l * s.reserve1 / s.totalSupply) *
                     (s.reserve2 - l * s.reserve2 / s.totalSupply) := by
      rcases not_or.mp hz with ⟨hn1, hn2⟩
      exact Nat.mul_pos (Nat.pos_of_ne_zero hn1) (Nat.pos_of_ne_zero hn2)
    simp [removeLiquidity, burnShares, subChecked, erc20CanTransfer,
          updateConstantFormula, hT, Nat.not_lt.mpr hbal, Nat.not_lt.mpr hlT,
          hp1, hp2, hb1, hb2, hz, hzpos]

/-- Characterisation of a successful `createPairs` call. -/
theorem createPairs_ok_spec {s s' : NebuSwapState} {t1 t2 p : Nat}
    (h : createPairs s t1 t2 = .ok (s', p)) :
    t1 ≠ t2 ∧ getPair s t1 t2 = none ∧
    s' = { allPairs := s.allPairs ++ [s.allPairs.length],
           pairs := ((t1, t2), s.allPairs.length) ::
                    ((t2, t1), s.allPairs.length) :: s.pairs } ∧
    p = s.allPairs.length := by
  unfold createPairs at h
  split at h
  · simp at h
  split at h
  · simp at h
  rename_i hne hdup
  rw [Except.ok.injEq, Prod.mk.injEq] at h
  obtain ⟨rfl, rfl⟩ := h
  exact ⟨hne, by simpa using hdup, rfl, rfl⟩

/-- `getPair` is symmetric on every reachable registry: `createPairs` always
registers both key orders. -/
theorem getPair_symm {s : NebuSwapState} (hs : RegReachable s) (a b : Nat) :
    getPair s a b = getPair s b a := by
  induction hs with
  | init => rfl
  | step hr hc ih =>
      obtain ⟨hne, -, rfl, -⟩ := createPairs_ok_spec hc
      rename_i t1 t2 p
      simp only [getPair, lookupPair]
      split_ifs <;> first
        | rfl
        | exact ih
        | (exfalso; simp only [Prod.mk.injEq] at *; omega)

/-- After a successful `createPairs`, both key orders are registered, so both
re-creation orders are rejected. -/
theorem createPairs_dup {s s' : NebuSwapState} {t1 t2 p : Nat}
    (h : createPairs s t1 t2 = .ok (s', p)) :
    createPairs s' t1 t2 = .error .DuplicatePair ∧
    createPairs s' t2 t1 = .error .DuplicatePair ∧
    getPair s' t1 t2 = some p ∧ getPair s' t2 t1 = some p := by
  obtain ⟨hne, -, rfl, rfl⟩ := createPairs_ok_spec h
  have hg1 : getPair { allPairs := s.allPairs ++ [s.allPairs.length],
                       pairs := ((t1, t2), s.allPairs.length) ::
                                ((t2, t1), s.allPairs.length) :: s.pairs } t1 t2 =
      some s.allPairs.length := by
    simp [getPair, lookupPair]
  have hg2 : getPair { allPairs := s.allPairs ++ [s.allPairs.length],
                       pairs := ((t1, t2), s.allPairs.length) ::
                                ((t2, t1), s.allPairs.length) :: s.pairs } t2 t1 =
      some s.allPairs.length := by
    simp [getPair, lookupPair, Prod.ext_iff, hne]
  refine ⟨?_, ?_, hg1, hg2⟩
  · unfold createPairs
    rw [if_neg hne, if_pos (by simp [hg1])]
  · unfold createPairs
    rw [if_neg (Ne.symm hne), if_pos (by simp [hg2])]

/-- `s'` arises from `s` by zero or more further successful `createPairs`
calls. -/
inductive RegEvolves : NebuSwapState → NebuSwapState → Prop where
  | refl (s : NebuSwapState) : RegEvolves s s
  | step {s s' s'' : NebuSwapState} {t1 t2 p : Nat} :
      RegEvolves s s' → createPairs s' t1 t2 = .ok (s'', p) → RegEvolves s s''

theorem RegEvolves_reachable {s s' : NebuSwapState}
    (hs : RegReachable s) (he : RegEvolves s s') : RegReachable s' := by
  induction he with
  | refl => exact hs
  | step _ hc ih => exact .step ih hc

/-- One further `createPairs` call never removes or overwrites a registered
pair: the duplicate check blocks the same key order, and on a reachable
registry the symmetry invariant blocks the reversed order. -/
theorem getPair_persists_step {s s' : NebuSwapState} {t1 t2 q a b p : Nat}
    (hs : RegReachable s) (hget : getPair s a b = some p)
    (hc : createPairs s t1 t2 = .ok (s', q)) : getPair s' a b = some p := by
  obtain ⟨hne, hnone, rfl, -⟩ := createPairs_ok_spec hc
  by_cases h1 : (t1, t2) = (a, b)
  · exfalso
    have ha : t1 = a := congrArg Prod.fst h1
    have hb : t2 = b := congrArg Prod.snd h1
    rw [ha, hb] at hnone
    rw [hnone] at hget
    cases hget
  · by_cases h2 : (t2, t1) = (a, b)
    · exfalso
      have ha : t2 = a := congrArg Prod.fst h2
      have hb : t1 = b := congrArg Prod.snd h2
      have hsym := getPair_symm hs a b
      rw [hget, ← ha, ← hb, hnone] at hsym
      cases hsym
    · simpa [getPair, lookupPair, h1, h2] using hget

/-- A registered pair persists, with the same pool, across every sequence of
further `createPairs` calls. -/
theorem getPair_persists {s s' : NebuSwapState} {a b p : Nat}
    (hs : RegReachable s) (he : RegEvolves s s')
    (hget : getPair s a b = some p) : getPair s' a b = some p := by
  induction he with
  | refl => exact hget
  | step he' hc ih => exact getPair_persists_step (RegEvolves_reachable hs he') ih hc

/-- A registered pair makes `createPairs` fail in that key order. -/
theorem createPairs_dup_of_getPair {s : NebuSwapState} {t1 t2 p : Nat}
    (hne : t1 ≠ t2) (hget : getPair s t1 t2 = some p) :
    createPairs s t1 t2 = .error .DuplicatePair := by
  unfold createPairs
  rw [if_neg hne, if_pos (by simp [hget])]

/-! ## Concrete example states -/

/-- Spec scenario 3 state: tokens (1, 2), reserves (110, 440), stored K
48400, total supply 220 held by provider 7, pool holdings matching the
reserves. -/
def poolS3 : PoolState :=
  { token1 := 1, token2 := 2, reserve1 := 110, reserve2 := 440,
    constantK := 48400, bal1 := 110, bal2 := 440, totalSupply := 220,
    shareBal := [(7, 220)] }

/-- Same tokens and reserves as `poolS3` but stored K 0. -/
def poolS3K0 : PoolState := { poolS3 with constantK := 0 }

/-- Proportional-deposit example state: reserves (100, 400), total supply
200 held by provider 7. -/
def poolP : PoolState :=
  { token1 := 1, token2 := 2, reserve1 := 100, reserve2 := 400,
    constantK := 40000, bal1 := 100, bal2 := 400, totalSupply := 200,
    shareBal := [(7, 200)] }

/-- Small reachable pool: the state after a first deposit of (2, 2) by
provider 7 on a fresh pool of tokens (1, 2). -/
def poolSmall : PoolState :=
  { token1 := 1, token2 := 2, reserve1 := 2, reserve2 := 2, constantK := 4,
    bal1 := 2, bal2 := 2, totalSupply := 2, shareBal := [(7, 2)] }

/-- The state after swapping 2 of token1 into `poolSmall`: output 1, reserves
(4, 1), product 4 = K exactly, so this swap is one the source accepts. -/
def poolSmall2 : PoolState :=
  { token1 := 1, token2 := 2, reserve1 := 4, reserve2 := 1, constantK := 4,
    bal1 := 4, bal2 := 1, totalSupply := 2, shareBal := [(7, 2)] }

theorem sqrtFour : Nat.sqrt 4 = 2 := sqrtEval (by decide) (by decide)

theorem poolSmall_step :
    addLiquidity (initPool 1 2) 7 100 100 2 2 = .ok (poolSmall, 2) := by
  simp [addLiquidity, initPool, mintShares, shareBalOf, lookupBal, setBal,
        updateConstantFormula, poolSmall, sqrtFour]

theorem poolSmall_reachable : PoolReachable poolSmall :=
  .addLiq (.init 1 2 (by decide)) poolSmall_step

theorem poolSmall_swap :
    swapTokens poolSmall 10 1 2 2 1 = .ok (poolSmall2, 1) := rfl

/-- Registry after creating the pair (1, 2) on the empty registry. -/
def regS1 : NebuSwapState :=
  { allPairs := [0], pairs := [((1, 2), 0), ((2, 1), 0)] }

/-- Registry after additionally creating the pair (3, 4). -/
def regS2 : NebuSwapState :=
  { allPairs := [0, 1],
    pairs := [((3, 4), 1), ((4, 3), 1), ((1, 2), 0), ((2, 1), 0)] }

/-! ## Claim theorems -/

/-- C1: for every pool state reachable by the public operations and every
swap call that completes successfully (which entails amountIn > 0, a valid
asset pair and a passed slippage check), the product of the reserves after
the swap is at least the product before it. -/
theorem swap_product_monotone {s s' : PoolState} {tb ft tt aIn aOut out : Nat}
    (hs : PoolReachable s)
    (h : swapTokens s tb ft tt aIn aOut = .ok (s', out)) :
    s.reserve1 * s.reserve2 ≤ s'.reserve1 * s'.reserve2 := by
  obtain ⟨hprod, hK, -, -⟩ := swapTokens_ok_spec h
  have hki := Kinv_reachable hs
  unfold Kinv at hki
  rw [hprod, hK, hki]
  split
  · rename_i h0
    rcases h0 with h0 | h0 <;> simp [h0]
  · exact Nat.le_refl _

/-- Witness for C1: a concrete reachable pool (2,2) and a concrete
successful swap of 2 token1 for 1 token2, reserves become (4,1). -/
theorem swap_product_monotone_witness :
    poolSmall.reserve1 * poolSmall.reserve2 ≤
      poolSmall2.reserve1 * poolSmall2.reserve2 :=
  swap_product_monotone poolSmall_reachable poolSmall_swap

/-- C2 (evaluation of the code at the spec's scenario 3): the quote at
reserves (110,440), stored K 48400, amountIn 10 is 37 as the claim says,
but the swap itself reverts at the source's final equality check
`reserve1 * reserve2 == constantK` (120 * 403 = 48360 ≠ 48400) instead of
succeeding with reserves (120, 403). -/
theorem scenario3_swap_reverts :
    getExpectedOutput poolS3 1 10 = .ok 37 ∧
    swapTokens poolS3 100 1 2 10 37 = .error .InvariantViolation ∧
    (110 + 10) * (440 - 37) = 48360 := ⟨rfl, rfl, rfl⟩

/-- C3 (evaluation of the code): a swap with fromToken = token2 (the pool's
own second asset, with toToken = token1) is rejected as InvalidAsset: the
source's pair validation repeats the `fromToken == token1 && toToken ==
token2` disjunct twice, so the reverse direction never passes it. -/
theorem swap_reverse_direction_rejected :
    poolS3.token1 = 1 ∧ poolS3.token2 = 2 ∧
    swapTokens poolS3 100 2 1 10 1 = .error .InvalidAsset := ⟨rfl, rfl, rfl⟩

/-- C4: on an empty pool (totalSupply 0, transfers funded), addLiquidity
mints floor(sqrt(amountA*amountB)) shares, fails
InsufficientInitialLiquidity exactly when that value is 0, and on success
sets the reserves to exactly (amountA, amountB). -/
theorem addLiquidity_first_deposit {s : PoolState} {p b1 b2 a1 a2 : Nat}
    (hT : s.totalSupply = 0) (h1 : a1 ≤ b1) (h2 : a2 ≤ b2) :
    (Nat.sqrt (a1 * a2) = 0 →
       addLiquidity s p b1 b2 a1 a2 = .error .InsufficientInitialLiquidity) ∧
    (0 < Nat.sqrt (a1 * a2) →
       ∃ s', addLiquidity s p b1 b2 a1 a2 = .ok (s', Nat.sqrt (a1 * a2)) ∧
             s'.reserve1 = a1 ∧ s'.reserve2 = a2) :=
  ⟨fun hz => addLiquidity_first_err hT h1 h2 hz,
   fun hpos => ⟨_, addLiquidity_first_ok hT h1 h2 hpos, rfl, rfl⟩⟩

/-- Witness for C4: spec scenario 1 — addLiquidity(100, 400) on an empty
pool mints 200 shares and leaves reserves (100, 400). -/
theorem addLiquidity_first_deposit_witness :
    ∃ s', addLiquidity (initPool 1 2) 7 1000 1000 100 400 = .ok (s', 200) ∧
          s'.reserve1 = 100 ∧ s'.reserve2 = 400 := by
  have hs : Nat.sqrt (100 * 400) = 200 := by norm_num
  have h := (@addLiquidity_first_deposit (initPool 1 2) 7 1000 1000 100 400
      rfl (by decide) (by decide)).2 (by rw [hs]; decide)
  rwa [hs] at h

/-- C5 counterexample: on a pool with totalSupply 200 and reserves
(100, 400), a deposit of (1, 1) has min pro-rata share 0, yet the operation
does NOT fail with a zero-shares error: it succeeds, mints 0 shares, and
still adds the full amounts to the reserves. -/
theorem addLiquidity_zero_shares_succeeds :
    min (1 * poolP.totalSupply / poolP.reserve1)
        (1 * poolP.totalSupply / poolP.reserve2) = 0 ∧
    addLiquidity poolP 7 10 10 1 1 =
      .ok ({ token1 := 1, token2 := 2, reserve1 := 101, reserve2 := 401,
             constantK := 40501, bal1 := 101, bal2 := 401,
             totalSupply := 200, shareBal := [(7, 200)] }, 0) := ⟨rfl, rfl⟩

/-- C5 amended: with totalSupply > 0 (and nonzero reserves and funded
transfers) addLiquidity always succeeds, minting
min(amountA*T/reserveA, amountB*T/reserveB) shares — even when that minimum
is 0 — and always adds the full amounts to the reserves. -/
theorem addLiquidity_proportional {s : PoolState} {p b1 b2 a1 a2 : Nat}
    (hT : s.totalSupply ≠ 0) (hr1 : s.reserve1 ≠ 0) (hr2 : s.reserve2 ≠ 0)
    (h1 : a1 ≤ b1) (h2 : a2 ≤ b2) :
    ∃ s', addLiquidity s p b1 b2 a1 a2 =
            .ok (s', min (a1 * s.totalSupply / s.reserve1)
                         (a2 * s.totalSupply / s.reserve2)) ∧
          s'.reserve1 = s.reserve1 + a1 ∧ s'.reserve2 = s.reserve2 + a2 ∧
          s'.totalSupply = s.totalSupply +
            min (a1 * s.totalSupply / s.reserve1)
                (a2 * s.totalSupply / s.reserve2) :=
  ⟨_, addLiquidity_prop_ok hT hr1 hr2 h1 h2, rfl, rfl, rfl⟩

/-- Witness for C5 amended, at the zero-share input itself. -/
theorem addLiquidity_proportional_witness :
    ∃ s', addLiquidity poolP 7 10 10 1 1 =
            .ok (s', min (1 * poolP.totalSupply / poolP.reserve1)
                         (1 * poolP.totalSupply / poolP.reserve2)) ∧
          s'.reserve1 = poolP.reserve1 + 1 ∧ s'.reserve2 = poolP.reserve2 + 1 ∧
          s'.totalSupply = poolP.totalSupply +
            min (1 * poolP.totalSupply / poolP.reserve1)
                (1 * poolP.totalSupply / poolP.reserve2) :=
  @addLiquidity_proportional poolP 7 10 10 1 1
    (by decide) (by decide) (by decide) (by decide) (by decide)

/-- C6: removeLiquidity fails NoLiquidity on totalSupply 0; fails
InsufficientShares when the provider holds fewer shares than requested
(enforced by the ledger's burn); otherwise (with a consistent ledger and a
funded pool) it pays out floor(share*reserve/totalSupply) of each asset,
burns the shares, and decreases the reserves by exactly the payouts. -/
theorem removeLiquidity_contract (s : PoolState) (p l : Nat) :
    (s.totalSupply = 0 → removeLiquidity s p l = .error .NoLiquidity) ∧
    (s.totalSupply ≠ 0 → shareBalOf s p < l →
       removeLiquidity s p l = .error .InsufficientShares) ∧
    (s.totalSupply ≠ 0 → l ≤ shareBalOf s p → l ≤ s.totalSupply →
     l * s.reserve1 / s.totalSupply ≤ s.bal1 →
     l * s.reserve2 / s.totalSupply ≤ s.bal2 →
       ∃ s', removeLiquidity s p l =
               .ok (s', l * s.reserve1 / s.totalSupply,
                    l * s.reserve2 / s.totalSupply) ∧
             s'.reserve1 + l * s.reserve1 / s.totalSupply = s.reserve1 ∧
             s'.reserve2 + l * s.reserve2 / s.totalSupply = s.reserve2 ∧
             s'.totalSupply + l = s.totalSupply ∧
             shareBalOf s' p + l = shareBalOf s p) := by
  refine ⟨fun hT => removeLiquidity_noLiquidity hT,
          fun hT hlt => removeLiquidity_insufficientShares hT hlt,
          fun hT hbal hlT hb1 hb2 => ?_⟩
  refine ⟨_, removeLiquidity_ok hT hbal hlT hb1 hb2, ?_, ?_, ?_, ?_⟩
  · exact Nat.sub_add_cancel (payout_le hlT hT)
  · exact Nat.sub_add_cancel (payout_le hlT hT)
  · exact Nat.sub_add_cancel hlT
  · simp only [shareBalOf, setBal, lookupBal, if_pos rfl]
    exact Nat.sub_add_cancel hbal

/-- Witness for C6: removing 20 of 200 shares from the (100, 400) pool pays
(10, 40) and decreases reserves, supply and the provider balance exactly. -/
theorem removeLiquidity_contract_witness :
    ∃ s', removeLiquidity poolP 7 20 =
            .ok (s', 20 * poolP.reserve1 / poolP.totalSupply,
                 20 * poolP.reserve2 / poolP.totalSupply) ∧
          s'.reserve1 + 20 * poolP.reserve1 / poolP.totalSupply = poolP.reserve1 ∧
          s'.reserve2 + 20 * poolP.reserve2 / poolP.totalSupply = poolP.reserve2 ∧
          s'.totalSupply + 20 = poolP.totalSupply ∧
          shareBalOf s' 7 + 20 = shareBalOf poolP 7 :=
  (removeLiquidity_contract poolP 7 20).2.2
    (by decide) (by decide) (by decide) (by decide) (by decide)

/-- C7: createPair(X, X) fails IdenticalAsset for every registry state;
after a successful createPair(X, Y) on a reachable registry, in EVERY later
state reached by further createPairs calls both createPair(X, Y) and
createPair(Y, X) fail DuplicatePair while getPair still returns the same
pool under both orders; and on every reachable registry getPair is
symmetric — so at most one pool ever exists per unordered pair. -/
theorem registry_unique_symmetric :
    (∀ (s : NebuSwapState) (t : Nat),
       createPairs s t t = .error .IdenticalAsset) ∧
    (∀ (s s₁ : NebuSwapState) (X Y p : Nat), RegReachable s →
       createPairs s X Y = .ok (s₁, p) →
       ∀ (s₂ : NebuSwapState), RegEvolves s₁ s₂ →
         createPairs s₂ X Y = .error .DuplicatePair ∧
         createPairs s₂ Y X = .error .DuplicatePair ∧
         getPair s₂ X Y = some p ∧ getPair s₂ Y X = some p) ∧
    (∀ (s : NebuSwapState), RegReachable s →
       ∀ a b, getPair s a b = getPair s b a) := by
  refine ⟨fun s t => ?_, fun s s₁ X Y p hs h s₂ he => ?_,
          fun s hs a b => getPair_symm hs a b⟩
  · unfold createPairs
    rw [if_pos rfl]
  · have hne : X ≠ Y := (createPairs_ok_spec h).1
    have hs₁ : RegReachable s₁ := .step hs h
    obtain ⟨-, -, hg1, hg2⟩ := createPairs_dup h
    have hg1' : getPair s₂ X Y = some p := getPair_persists hs₁ he hg1
    have hg2' : getPair s₂ Y X = some p := getPair_persists hs₁ he hg2
    exact ⟨createPairs_dup_of_getPair hne hg1',
           createPairs_dup_of_getPair (Ne.symm hne) hg2', hg1', hg2'⟩

/-- Witness for C7: create (1,2) on the empty registry, then evolve by a
further create of (3,4); in the evolved registry both re-creation orders of
(1,2) still fail and getPair still answers pool 0 under both orders. -/
theorem registry_unique_symmetric_witness :
    createPairs initRegistry 5 5 = .error .IdenticalAsset ∧
    createPairs regS2 1 2 = .error .DuplicatePair ∧
    createPairs regS2 2 1 = .error .DuplicatePair ∧
    getPair regS2 1 2 = some 0 ∧ getPair regS2 2 1 = some 0 ∧
    getPair regS2 9 8 = getPair regS2 8 9 := by
  have h1 : createPairs initRegistry 1 2 = .ok (regS1, 0) := rfl
  have h2 : createPairs regS1 3 4 = .ok (regS2, 1) := rfl
  have hmain := registry_unique_symmetric.2.1 initRegistry regS1 1 2 0 .init h1
    regS2 (RegEvolves.step (RegEvolves.refl regS1) h2)
  refine ⟨registry_unique_symmetric.1 initRegistry 5,
          hmain.1, hmain.2.1, hmain.2.2.1, hmain.2.2.2, ?_⟩
  exact registry_unique_symmetric.2.2 regS2
    (RegReachable.step (RegReachable.step .init h1) h2) 9 8

/-- C8 counterexample: the quote is NOT computed freshly from the current
reserves — `constantK` is stored pool state, and two pools with identical
tokens and identical reserves but different stored `constantK` values give
different quotes (37 versus 440 here). -/
theorem quote_reads_stored_K :
    ¬ (∀ (s t : PoolState) (ft aIn : Nat),
        s.token1 = t.token1 → s.token2 = t.token2 →
        s.reserve1 = t.reserve1 → s.reserve2 = t.reserve2 →
        getExpectedOutput s ft aIn = getExpectedOutput t ft aIn) := by
  intro hall
  have h := hall poolS3 poolS3K0 1 10 rfl rfl rfl rfl
  have h1 : getExpectedOutput poolS3 1 10 = .ok 37 := rfl
  have h2 : getExpectedOutput poolS3K0 1 10 = .ok 440 := rfl
  rw [h1, h2] at h
  exact absurd (Except.ok.inj h) (by decide)

/-- C8 amended: `constantK` is stored state read directly by the quote, but
on every reachable pool with nonzero reserves the stored value equals
reserve1 * reserve2, so there every quote coincides with the fresh
recomputation from the current reserves, in both directions. -/
theorem stored_K_fresh_on_reachable {s : PoolState} (hs : PoolReachable s)
    {aIn : Nat} (hIn : 0 < aIn) (h1 : s.reserve1 ≠ 0) (h2 : s.reserve2 ≠ 0) :
    s.constantK = s.reserve1 * s.reserve2 ∧
    getExpectedOutput s s.token1 aIn =
      .ok (s.reserve2 - s.reserve1 * s.reserve2 / (s.reserve1 + aIn)) ∧
    getExpectedOutput s s.token2 aIn =
      .ok (s.reserve1 - s.reserve1 * s.reserve2 / (s.reserve2 + aIn)) := by
  have hki := Kinv_reachable hs
  unfold Kinv at hki
  have hk : s.constantK = s.reserve1 * s.reserve2 := by
    rw [hki, if_neg (by simp [h1, h2])]
  have hne := reachable_token_ne hs
  refine ⟨hk, ?_, ?_⟩
  · have hle : s.reserve1 * s.reserve2 / (s.reserve1 + aIn) ≤ s.reserve2 := by
      calc s.reserve1 * s.reserve2 / (s.reserve1 + aIn)
          ≤ (s.reserve1 + aIn) * s.reserve2 / (s.reserve1 + aIn) :=
            Nat.div_le_div_right (Nat.mul_le_mul_right _ (Nat.le_add_right _ _))
        _ = s.reserve2 := Nat.mul_div_cancel_left _ (by omega)
    unfold getExpectedOutput subChecked
    rw [if_neg (not_not_intro hIn), if_neg (not_not_intro (Or.inl rfl)),
        if_pos rfl, hk, if_pos hle]
  · have hle : s.reserve1 * s.reserve2 / (s.reserve2 + aIn) ≤ s.reserve1 := by
      calc s.reserve1 * s.reserve2 / (s.reserve2 + aIn)
          ≤ s.reserve1 * (s.reserve2 + aIn) / (s.reserve2 + aIn) :=
            Nat.div_le_div_right (Nat.mul_le_mul_left _ (Nat.le_add_right _ _))
        _ = s.reserve1 := Nat.mul_div_cancel _ (by omega)
    unfold getExpectedOutput subChecked
    rw [if_neg (not_not_intro hIn), if_neg (not_not_intro (Or.inr rfl)),
        if_neg (fun he => hne he.symm), hk, if_pos hle]

/-- Witness for C8 amended at the concrete reachable pool (2, 2). -/
theorem stored_K_fresh_on_reachable_witness :
    poolSmall.constantK = poolSmall.reserve1 * poolSmall.reserve2 ∧
    getExpectedOutput poolSmall poolSmall.token1 2 =
      .ok (poolSmall.reserve2 -
           poolSmall.reserve1 * poolSmall.reserve2 / (poolSmall.reserve1 + 2)) ∧
    getExpectedOutput poolSmall poolSmall.token2 2 =
      .ok (poolSmall.reserve1 -
           poolSmall.reserve1 * poolSmall.reserve2 / (poolSmall.reserve2 + 2)) :=
  stored_K_fresh_on_reachable poolSmall_reachable (by decide) (by decide) (by decide)

/-- C9: in every reachable pool state the stored constantK equals
reserve1 * reserve2 whenever both reserves are nonzero, and 0 whenever
either reserve is zero. -/
theorem constantK_tracks_reserves {s : PoolState} (hs : PoolReachable s) :
    (s.reserve1 ≠ 0 → s.reserve2 ≠ 0 → s.constantK = s.reserve1 * s.reserve2) ∧
    ((s.reserve1 = 0 ∨ s.reserve2 = 0) → s.constantK = 0) := by
  have hki := Kinv_reachable hs
  unfold Kinv at hki
  exact ⟨fun h1 h2 => by rw [hki, if_neg (by simp [h1, h2])],
         fun h0 => by rw [hki, if_pos h0]⟩

/-- Witness for C9 at the concrete reachable pool (2, 2), stored K 4. -/
theorem constantK_tracks_reserves_witness :
    poolSmall.constantK = poolSmall.reserve1 * poolSmall.reserve2 :=
  (constantK_tracks_reserves poolSmall_reachable).1 (by decide) (by decide)

/-- C10: with a valid direction and positive amounts, the swap fails
InsufficientBalanceFrom when the trader's balance of fromToken equals
amountIn exactly, and fails InsufficientBalanceTo when the pool's balance
of the outgoing token equals the requested amountOut exactly — although an
ERC20 transfer of exactly the available balance succeeds. -/
theorem swap_strict_balance_edge {s : PoolState} {tb ft tt aIn aOut : Nat}
    (hIn : 0 < aIn) (hOut : 0 < aOut) (hft : ft = s.token1) (htt : tt = s.token2) :
    (tb = aIn → swapTokens s tb ft tt aIn aOut = .error .InsufficientBalanceFrom) ∧
    (aIn < tb → poolBalOf s tt = aOut →
       swapTokens s tb ft tt aIn aOut = .error .InsufficientBalanceTo) ∧
    erc20CanTransfer aIn aIn = true ∧ erc20CanTransfer aOut aOut = true := by
  subst hft; subst htt
  refine ⟨?_, ?_, by simp [erc20CanTransfer], by simp [erc20CanTransfer]⟩
  · rintro rfl
    simp [swapTokens, hIn, hOut]
  · intro htb hpb
    simp [swapTokens, hIn, hOut, htb, hpb]

/-- Witness for C10: trader balance exactly 10 = amountIn fails; pool token2
balance exactly 440 = requested amountOut fails. -/
theorem swap_strict_balance_edge_witness :
    swapTokens poolS3 10 1 2 10 5 = .error .InsufficientBalanceFrom ∧
    swapTokens poolS3 600 1 2 10 440 = .error .InsufficientBalanceTo := by
  constructor
  · exact (@swap_strict_balance_edge poolS3 10 1 2 10 5
      (by decide) (by decide) rfl rfl).1 rfl
  · exact (@swap_strict_balance_edge poolS3 600 1 2 10 440
      (by decide) (by decide) rfl rfl).2.1 (by decide) (by decide)
